import Mathlib

/-!
Shallow embedding of the simple-pubsub vending-machine event bus
(source: src/app.ts, reference scenario in the accompanying main program).

The TypeScript program is single-threaded and synchronous, so mutation of
the shared Machine array and of the pending-event queue is modelled by
explicit state passing: a dispatch state carries the machine list and the
pending queue, and every handler is a function on that state.  A handler
fault (a thrown exception) is modelled with Except String; the bus does not
catch it, mirroring the unguarded forEach fan-out in publish.
-/

namespace VendingPubSub

/-- The process-wide threshold constant LOW_STOCK_WARNING_THRESHOLD = 3. -/
def LOW_STOCK_WARNING_THRESHOLD : Int := 3

/-- The closed set of event variants of src/app.ts: MachineSaleEvent,
MachineRefillEvent, LowStockWarningEvent, StockLevelOkEvent, each carrying
its numeric payload and the machine id string. -/
inductive Event where
  | sale (sold : Int) (machineId : String)
  | refill (amount : Int) (machineId : String)
  | lowStockWarning (stockRemain : Int) (machineId : String)
  | stockLevelOk (stockRemain : Int) (machineId : String)
deriving DecidableEq, Repr

/-- Event.type(): the EVENT_TYPE string tag of each variant. -/
def Event.type : Event → String
  | .sale _ _ => "sale"
  | .refill _ _ => "refil"
  | .lowStockWarning _ _ => "low_stock_warning"
  | .stockLevelOk _ _ => "stock_level_ok"

/-- Event.machineId(). -/
def Event.machineId : Event → String
  | .sale _ m => m
  | .refill _ m => m
  | .lowStockWarning _ m => m
  | .stockLevelOk _ m => m

/-- MachineSaleEvent.getSoldQuantity().  Only sale-tagged events reach the
sale handler in the reference wiring; other variants have no such method,
so the value 0 for them is an unreachable placeholder. -/
def Event.getSoldQuantity : Event → Int
  | .sale q _ => q
  | _ => 0

/-- MachineRefillEvent.refillAmount(); same placeholder convention. -/
def Event.refillAmount : Event → Int
  | .refill a _ => a
  | _ => 0

/-- A vending machine: id string plus mutable stock level (a TS number,
integral in all reference behavior, possibly negative). -/
structure Machine where
  id : String
  stockLevel : Int
deriving DecidableEq, Repr

/-- machines.find(machine => machine.id == machineId): first match wins. -/
def getMachineById (machines : List Machine) (machineId : String) : Option Machine :=
  match machines with
  | [] => none
  | m :: rest => if m.id == machineId then some m else getMachineById rest machineId

/-- targetMachine.stockLevel -= qty: the object found by getMachineById is
the first machine with the given id, so the mutation updates the first
match in the array and leaves every other element untouched. -/
def reduceStock (machines : List Machine) (machineId : String) (total : Int) : List Machine :=
  match machines with
  | [] => []
  | m :: rest =>
    if m.id == machineId then { m with stockLevel := m.stockLevel - total } :: rest
    else m :: reduceStock rest machineId total

/-- targetMachine.stockLevel += amount, same first-match convention. -/
def refillStock (machines : List Machine) (machineId : String) (total : Int) : List Machine :=
  match machines with
  | [] => []
  | m :: rest =>
    if m.id == machineId then { m with stockLevel := m.stockLevel + total } :: rest
    else m :: refillStock rest machineId total

/-- The four subscriber behaviours of src/app.ts. -/
inductive SKind where
  | saleSub
  | refillSub
  | warnSub
  | okSub
deriving DecidableEq, Repr

/-- A subscriber object: the TS bus compares handlers by reference
identity, so each constructed subscriber instance carries a distinct
serial number; equality of Subscriber values is reference equality. -/
structure Subscriber where
  sid : Nat
  kind : SKind
deriving DecidableEq, Repr

/-- The dispatch state visible to a handler call: the shared machines
array and the shared pending-event queue (the eventHolder argument). -/
structure DState where
  machines : List Machine
  queue : List Event
deriving DecidableEq, Repr

/-- MachineSaleSubscriber.handle: look the machine up; if unknown, log and
return with no mutation; otherwise read the pre-stock, subtract the sold
quantity (the post value is read back from the same mutated object), and
push a LowStockWarningEvent when the stock crosses from >= threshold to
< threshold. -/
def saleHandle (event : Event) (st : DState) : DState :=
  match getMachineById st.machines (Event.machineId event) with
  | none => st
  | some m =>
    let stockLevelBeforeEvent := m.stockLevel
    let machines := reduceStock st.machines (Event.machineId event) (Event.getSoldQuantity event)
    let stockLevelAfterEvent := stockLevelBeforeEvent - Event.getSoldQuantity event
    if stockLevelBeforeEvent ≥ LOW_STOCK_WARNING_THRESHOLD ∧
        stockLevelAfterEvent < LOW_STOCK_WARNING_THRESHOLD then
      { machines := machines,
        queue := st.queue ++ [Event.lowStockWarning stockLevelAfterEvent (Event.machineId event)] }
    else
      { machines := machines, queue := st.queue }

/-- MachineRefillSubscriber.handle: symmetric to saleHandle; pushes a
StockLevelOkEvent when the stock crosses from < threshold to >= threshold. -/
def refillHandle (event : Event) (st : DState) : DState :=
  match getMachineById st.machines (Event.machineId event) with
  | none => st
  | some m =>
    let stockLevelBeforeEvent := m.stockLevel
    let machines := refillStock st.machines (Event.machineId event) (Event.refillAmount event)
    let stockLevelAfterEvent := stockLevelBeforeEvent + Event.refillAmount event
    if stockLevelBeforeEvent < LOW_STOCK_WARNING_THRESHOLD ∧
        stockLevelAfterEvent ≥ LOW_STOCK_WARNING_THRESHOLD then
      { machines := machines,
        queue := st.queue ++ [Event.stockLevelOk stockLevelAfterEvent (Event.machineId event)] }
    else
      { machines := machines, queue := st.queue }

/-- The pure effect of one reference subscriber handling one event.
StockWarningSubscriber.handle and StockLevelOkSubscriber.handle only log
the event: they neither mutate machines nor push derived events. -/
def refStep (s : Subscriber) (event : Event) (st : DState) : DState :=
  match s.kind with
  | .saleSub => saleHandle event st
  | .refillSub => refillHandle event st
  | .warnSub => st
  | .okSub => st

/-- A generic handler semantics: subscriber.handle(event, eventHolder) may
mutate the dispatch state or throw (Except.error, a HandlerFault). -/
abbrev HandleFn := Subscriber → Event → DState → Except String DState

/-- The reference handler set never throws. -/
def refHandle : HandleFn := fun s event st => Except.ok (refStep s event st)

/-- The subscription registry: eventSubscribe maps a type-tag string to the
ordered list of registered subscribers. -/
abbrev Registry := List (String × List Subscriber)

/-- this.eventSubscribe[type]: undefined (none) when the key is absent. -/
def lookupReg (reg : Registry) (t : String) : Option (List Subscriber) :=
  match reg with
  | [] => none
  | (k, l) :: rest => if k == t then some l else lookupReg rest t

/-- PublishSubscribeService.subscribe: push onto the existing list, or
create a fresh singleton list for a new type tag. -/
def subscribeReg (reg : Registry) (t : String) (handler : Subscriber) : Registry :=
  match reg with
  | [] => [(t, [handler])]
  | (k, l) :: rest =>
    if k == t then (k, l ++ [handler]) :: rest
    else (k, l) :: subscribeReg rest t handler

/-- PublishSubscribeService.unsubscribe: if the tag has no list, log
"Subscribe not found." and leave the registry alone; otherwise replace the
list by its filter keeping every handler not identical to the argument. -/
def unsubscribeReg (reg : Registry) (t : String) (handler : Subscriber) : Registry :=
  match reg with
  | [] => []
  | (k, l) :: rest =>
    if k == t then (k, l.filter (fun s => s != handler)) :: rest
    else (k, l) :: unsubscribeReg rest t handler

/-- subscribers.forEach(subscriber => subscriber.handle(event, eventHolder)):
run the handlers left to right, threading the state; a thrown fault stops
the iteration and propagates.  The first component records which
subscribers were actually invoked, in order. -/
def runHandlers (h : HandleFn) (subs : List Subscriber) (event : Event) (st : DState) :
    List Subscriber × Except String DState :=
  match subs with
  | [] => ([], Except.ok st)
  | s :: rest =>
    match h s event st with
    | Except.error f => ([s], Except.error f)
    | Except.ok st1 =>
      let r := runHandlers h rest event st1
      (s :: r.1, r.2)

/-- PublishSubscribeService.publish: look up the handler list for the
event type; if the key is absent, log "No subscriber" and return with the
state untouched; otherwise fan out over the list. -/
def publish (h : HandleFn) (reg : Registry) (event : Event) (st : DState) :
    List Subscriber × Except String DState :=
  match lookupReg reg (Event.type event) with
  | none => ([], Except.ok st)
  | some subs => runHandlers h subs event st

/-- The main drain loop: do { event = events.shift(); if (!event) break;
publish(event, events); } while (events.length > 0).  The queue lives in
the dispatch state; each iteration pops the head and publishes it with the
remaining queue as the eventHolder.  Fuel bounds the number of iterations;
every theorem below supplies enough fuel, so the fuel-exhaustion branch is
a modelling artifact only.  The first component is the delivery trace: the
events popped and published, in order.  A handler fault aborts the loop. -/
def drain (h : HandleFn) (reg : Registry) (fuel : Nat) (st : DState) :
    List Event × Except String DState :=
  match fuel with
  | 0 => ([], Except.ok st)
  | fuel + 1 =>
    match st.queue with
    | [] => ([], Except.ok st)
    | event :: rest =>
      match publish h reg event { machines := st.machines, queue := rest } with
      | (_, Except.error f) => ([event], Except.error f)
      | (_, Except.ok st1) =>
        let r := drain h reg fuel st1
        (event :: r.1, r.2)

/-- The saleSubscriber instance of the main program. -/
def saleSubscriber : Subscriber := { sid := 0, kind := SKind.saleSub }

/-- The refillSubscriber instance of the main program. -/
def refillSubscriber : Subscriber := { sid := 1, kind := SKind.refillSub }

/-- The stockWarningSubscriber instance of the main program. -/
def stockWarningSubscriber : Subscriber := { sid := 2, kind := SKind.warnSub }

/-- The stockLevelOkSubscriber instance of the main program. -/
def stockLevelOkSubscriber : Subscriber := { sid := 3, kind := SKind.okSub }

/-- The four subscribe calls of the main program, in order. -/
def refReg : Registry :=
  subscribeReg
    (subscribeReg
      (subscribeReg
        (subscribeReg [] "sale" saleSubscriber)
        "refil" refillSubscriber)
      "low_stock_warning" stockWarningSubscriber)
    "stock_level_ok" stockLevelOkSubscriber

/-- The three machines of the main program, each with stock 10. -/
def refMachines : List Machine :=
  [ { id := "001", stockLevel := 10 },
    { id := "002", stockLevel := 10 },
    { id := "003", stockLevel := 10 } ]

/-- The deterministic test batch of the reference main program. -/
def refBatch : List Event :=
  [ Event.sale 8 "001",
    Event.sale 1 "001",
    Event.sale 8 "002",
    Event.refill 5 "002",
    Event.refill 2 "002" ]

/-- Termination measure for the reference handler set: a Sale or Refill
delivery can spawn at most one derived event, a warning or ok delivery
spawns none, so weighting the former 2 and the latter 1 makes the total
queue weight strictly decrease at every drain iteration. -/
def eventWeight : Event → Nat
  | .sale _ _ => 2
  | .refill _ _ => 2
  | .lowStockWarning _ _ => 1
  | .stockLevelOk _ _ => 1

/-- Total weight of a pending queue. -/
def queueWeight (q : List Event) : Nat := (q.map eventWeight).sum

/- ======================= Basic computation lemmas ======================= -/

theorem publish_sale_eq (qty : Int) (mid : String) (st : DState) :
    publish refHandle refReg (Event.sale qty mid) st =
      ([saleSubscriber], Except.ok (saleHandle (Event.sale qty mid) st)) := rfl

theorem publish_refill_eq (amt : Int) (mid : String) (st : DState) :
    publish refHandle refReg (Event.refill amt mid) st =
      ([refillSubscriber], Except.ok (refillHandle (Event.refill amt mid) st)) := rfl

theorem publish_warn_eq (r : Int) (mid : String) (st : DState) :
    publish refHandle refReg (Event.lowStockWarning r mid) st =
      ([stockWarningSubscriber], Except.ok st) := rfl

theorem publish_ok_eq (r : Int) (mid : String) (st : DState) :
    publish refHandle refReg (Event.stockLevelOk r mid) st =
      ([stockLevelOkSubscriber], Except.ok st) := rfl

theorem saleHandle_machines_eq (ms : List Machine) (q : List Event) (mid : String)
    (m : Machine) (qty : Int) (hm : getMachineById ms mid = some m) :
    (saleHandle (Event.sale qty mid) { machines := ms, queue := q }).machines =
      reduceStock ms mid qty := by
  simp only [saleHandle, Event.machineId, Event.getSoldQuantity, hm]
  split <;> rfl

theorem refillHandle_machines_eq (ms : List Machine) (q : List Event) (mid : String)
    (m : Machine) (amt : Int) (hm : getMachineById ms mid = some m) :
    (refillHandle (Event.refill amt mid) { machines := ms, queue := q }).machines =
      refillStock ms mid amt := by
  simp only [refillHandle, Event.machineId, Event.refillAmount, hm]
  split <;> rfl

theorem getMachineById_reduceStock (ms : List Machine) (mid : String) (m : Machine)
    (qty : Int) (hm : getMachineById ms mid = some m) :
    getMachineById (reduceStock ms mid qty) mid =
      some { id := m.id, stockLevel := m.stockLevel - qty } := by
  induction ms with
  | nil => simp [getMachineById] at hm
  | cons m0 rest ih =>
    by_cases hid : m0.id == mid
    · simp only [getMachineById, hid, if_pos] at hm
      cases hm
      simp [reduceStock, getMachineById, hid]
    · simp only [getMachineById, hid] at hm
      simp [reduceStock, getMachineById, hid, ih hm]

theorem getMachineById_refillStock (ms : List Machine) (mid : String) (m : Machine)
    (amt : Int) (hm : getMachineById ms mid = some m) :
    getMachineById (refillStock ms mid amt) mid =
      some { id := m.id, stockLevel := m.stockLevel + amt } := by
  induction ms with
  | nil => simp [getMachineById] at hm
  | cons m0 rest ih =>
    by_cases hid : m0.id == mid
    · simp only [getMachineById, hid, if_pos] at hm
      cases hm
      simp [refillStock, getMachineById, hid]
    · simp only [getMachineById, hid] at hm
      simp [refillStock, getMachineById, hid, ih hm]

/- ======================= Claim theorems ======================= -/

/-- C1.  Threshold edge-triggering: with the reference registry (sale and
refill handler each registered once), a single Sale on a known machine
crossing from >= threshold to < threshold appends exactly the one
LowStockWarning event carrying the post-sale stock and the machine id; a
Sale staying on the same side of the threshold appends nothing; a Refill
crossing from < threshold to >= threshold appends exactly the one StockOk
event; a Refill staying on the same side appends nothing.  The comparison
is strict < on the post state and >= on the pre state for Sale, mirrored
for Refill. -/
theorem edge_triggering_sale_refill (ms : List Machine) (q : List Event)
    (mid : String) (m : Machine) (hm : getMachineById ms mid = some m) :
    (∀ qty : Int, m.stockLevel ≥ LOW_STOCK_WARNING_THRESHOLD →
      m.stockLevel - qty < LOW_STOCK_WARNING_THRESHOLD →
      (publish refHandle refReg (Event.sale qty mid) { machines := ms, queue := q }).2 =
        Except.ok { machines := reduceStock ms mid qty,
                    queue := q ++ [Event.lowStockWarning (m.stockLevel - qty) mid] }) ∧
    (∀ qty : Int,
      (m.stockLevel ≥ LOW_STOCK_WARNING_THRESHOLD ∧
        m.stockLevel - qty ≥ LOW_STOCK_WARNING_THRESHOLD) ∨
      (m.stockLevel < LOW_STOCK_WARNING_THRESHOLD ∧
        m.stockLevel - qty < LOW_STOCK_WARNING_THRESHOLD) →
      (publish refHandle refReg (Event.sale qty mid) { machines := ms, queue := q }).2 =
        Except.ok { machines := reduceStock ms mid qty, queue := q }) ∧
    (∀ amt : Int, m.stockLevel < LOW_STOCK_WARNING_THRESHOLD →
      m.stockLevel + amt ≥ LOW_STOCK_WARNING_THRESHOLD →
      (publish refHandle refReg (Event.refill amt mid) { machines := ms, queue := q }).2 =
        Except.ok { machines := refillStock ms mid amt,
                    queue := q ++ [Event.stockLevelOk (m.stockLevel + amt) mid] }) ∧
    (∀ amt : Int,
      (m.stockLevel ≥ LOW_STOCK_WARNING_THRESHOLD ∧
        m.stockLevel + amt ≥ LOW_STOCK_WARNING_THRESHOLD) ∨
      (m.stockLevel < LOW_STOCK_WARNING_THRESHOLD ∧
        m.stockLevel + amt < LOW_STOCK_WARNING_THRESHOLD) →
      (publish refHandle refReg (Event.refill amt mid) { machines := ms, queue := q }).2 =
        Except.ok { machines := refillStock ms mid amt, queue := q }) := by
  refine ⟨?_, ?_, ?_, ?_⟩
  · intro qty h1 h2
    rw [publish_sale_eq]
    simp only [saleHandle, Event.machineId, Event.getSoldQuantity, hm]
    rw [if_pos ⟨h1, h2⟩]
  · intro qty hside
    rw [publish_sale_eq]
    simp only [saleHandle, Event.machineId, Event.getSoldQuantity, hm]
    rw [if_neg (by rcases hside with ⟨ha, hb⟩ | ⟨ha, hb⟩ <;> omega)]
  · intro amt h1 h2
    rw [publish_refill_eq]
    simp only [refillHandle, Event.machineId, Event.refillAmount, hm]
    rw [if_pos ⟨h1, h2⟩]
  · intro amt hside
    rw [publish_refill_eq]
    simp only [refillHandle, Event.machineId, Event.refillAmount, hm]
    rw [if_neg (by rcases hside with ⟨ha, hb⟩ | ⟨ha, hb⟩ <;> omega)]

/-- Witness for C1 on concrete inputs: machine 001 at stock 10; a Sale of
8 crosses the threshold and appends the warning, a Sale of 1 does not; at
stock 10 a Refill of 5 appends nothing; on a machine at stock 2 a Refill
of 5 crosses and appends the StockOk event. -/
theorem edge_triggering_sale_refill_witness :
    (publish refHandle refReg (Event.sale 8 "001") { machines := refMachines, queue := [] }).2 =
      Except.ok { machines := reduceStock refMachines "001" 8,
                  queue := [Event.lowStockWarning 2 "001"] } ∧
    (publish refHandle refReg (Event.sale 1 "001") { machines := refMachines, queue := [] }).2 =
      Except.ok { machines := reduceStock refMachines "001" 1, queue := [] } ∧
    (publish refHandle refReg (Event.refill 5 "001") { machines := refMachines, queue := [] }).2 =
      Except.ok { machines := refillStock refMachines "001" 5, queue := [] } ∧
    (publish refHandle refReg (Event.refill 5 "002")
        { machines := [{ id := "002", stockLevel := 2 }], queue := [] }).2 =
      Except.ok { machines := refillStock [{ id := "002", stockLevel := 2 }] "002" 5,
                  queue := [Event.stockLevelOk 7 "002"] } := by
  have h1 := edge_triggering_sale_refill refMachines []
    "001" { id := "001", stockLevel := 10 } rfl
  have h2 := edge_triggering_sale_refill [{ id := "002", stockLevel := 2 }] []
    "002" { id := "002", stockLevel := 2 } rfl
  exact ⟨by simpa using h1.1 8 (by decide) (by decide),
    by simpa using h1.2.1 1 (Or.inl (by decide)),
    by simpa using h1.2.2.2 5 (Or.inl (by decide)),
    by simpa using h2.2.2.1 5 (by decide) (by decide)⟩

/-- C3.  End-to-end reference scenario: three machines at stock 10, the
four reference subscribers, and the deterministic batch of five events;
the drain delivers exactly the two LowStockWarning events (remaining 2 for
001 and 2 for 002), exactly the one StockOk event (remaining 7 for 002),
and ends with stocks 001 = 1, 002 = 9, 003 = 10 and an empty queue. -/
theorem end_to_end_reference_scenario :
    ((drain refHandle refReg 10 { machines := refMachines, queue := refBatch }).1.filter
        (fun e => e.type == "low_stock_warning") =
      [Event.lowStockWarning 2 "001", Event.lowStockWarning 2 "002"]) ∧
    ((drain refHandle refReg 10 { machines := refMachines, queue := refBatch }).1.filter
        (fun e => e.type == "stock_level_ok") =
      [Event.stockLevelOk 7 "002"]) ∧
    (drain refHandle refReg 10 { machines := refMachines, queue := refBatch }).2 =
      Except.ok { machines := [ { id := "001", stockLevel := 1 },
                                { id := "002", stockLevel := 9 },
                                { id := "003", stockLevel := 10 } ],
                  queue := [] } := by
  exact ⟨rfl, rfl, rfl⟩

/-- C4.  Stock arithmetic without clamping: delivering a Sale(q, M) to the
sale handler leaves the looked-up machine M with stock S - q, and a
Refill(r, M) leaves it with S + r, for arbitrary integers: no floor at
zero and no upper cap. -/
theorem stock_arithmetic_no_clamping (ms : List Machine) (q : List Event)
    (mid : String) (m : Machine) (hm : getMachineById ms mid = some m) :
    (∀ qty : Int,
      getMachineById ((saleHandle (Event.sale qty mid) { machines := ms, queue := q }).machines) mid =
        some { id := m.id, stockLevel := m.stockLevel - qty }) ∧
    (∀ amt : Int,
      getMachineById ((refillHandle (Event.refill amt mid) { machines := ms, queue := q }).machines) mid =
        some { id := m.id, stockLevel := m.stockLevel + amt }) := by
  constructor
  · intro qty
    rw [saleHandle_machines_eq ms q mid m qty hm]
    exact getMachineById_reduceStock ms mid m qty hm
  · intro amt
    rw [refillHandle_machines_eq ms q mid m amt hm]
    exact getMachineById_refillStock ms mid m amt hm

/-- Witness for C4: selling 15 from stock 10 leaves -5 (negative allowed),
refilling 100 onto stock 10 leaves 110 (no cap). -/
theorem stock_arithmetic_no_clamping_witness :
    getMachineById ((saleHandle (Event.sale 15 "001")
        { machines := refMachines, queue := [] }).machines) "001" =
      some { id := "001", stockLevel := -5 } ∧
    getMachineById ((refillHandle (Event.refill 100 "001")
        { machines := refMachines, queue := [] }).machines) "001" =
      some { id := "001", stockLevel := 110 } := by
  have h := stock_arithmetic_no_clamping refMachines []
    "001" { id := "001", stockLevel := 10 } rfl
  exact ⟨by simpa using h.1 15, by simpa using h.2 100⟩

/-- C7.  Unknown-machine atomicity: a Sale or Refill for a machine id
absent from the inventory is handled without a propagating fault, with no
stock mutation and no appended event — publish returns ok with the
dispatch state exactly as it was — and the drain loop continues with the
rest of the batch. -/
theorem unknown_machine_atomicity (ms : List Machine) (mid : String)
    (hm : getMachineById ms mid = none) :
    (∀ (qty : Int) (q : List Event),
      publish refHandle refReg (Event.sale qty mid) { machines := ms, queue := q } =
        ([saleSubscriber], Except.ok { machines := ms, queue := q })) ∧
    (∀ (amt : Int) (q : List Event),
      publish refHandle refReg (Event.refill amt mid) { machines := ms, queue := q } =
        ([refillSubscriber], Except.ok { machines := ms, queue := q })) ∧
    (∀ (qty : Int) (rest : List Event) (fuel : Nat),
      drain refHandle refReg (fuel + 1) { machines := ms, queue := Event.sale qty mid :: rest } =
        (Event.sale qty mid :: (drain refHandle refReg fuel { machines := ms, queue := rest }).1,
          (drain refHandle refReg fuel { machines := ms, queue := rest }).2)) := by
  have hsale : ∀ (qty : Int) (q : List Event),
      publish refHandle refReg (Event.sale qty mid) { machines := ms, queue := q } =
        ([saleSubscriber], Except.ok { machines := ms, queue := q }) := by
    intro qty q
    rw [publish_sale_eq]
    simp only [saleHandle, Event.machineId, hm]
  refine ⟨hsale, ?_, ?_⟩
  · intro amt q
    rw [publish_refill_eq]
    simp only [refillHandle, Event.machineId, hm]
  · intro qty rest fuel
    simp only [drain, hsale qty rest]

/-- Witness for C7: a Sale and a Refill for the unknown machine id 004
leave the reference state untouched, and a one-event drain delivers the
event and stops with the state unchanged. -/
theorem unknown_machine_atomicity_witness :
    (publish refHandle refReg (Event.sale 3 "004") { machines := refMachines, queue := [] } =
      ([saleSubscriber], Except.ok { machines := refMachines, queue := [] })) ∧
    (publish refHandle refReg (Event.refill 3 "004") { machines := refMachines, queue := [] } =
      ([refillSubscriber], Except.ok { machines := refMachines, queue := [] })) ∧
    (drain refHandle refReg 1 { machines := refMachines, queue := [Event.sale 3 "004"] } =
      ([Event.sale 3 "004"], Except.ok { machines := refMachines, queue := [] })) := by
  have h := unknown_machine_atomicity refMachines "004" rfl
  exact ⟨h.1 3 [], h.2.1 3 [], by simpa using h.2.2 3 [] 0⟩

/-- C8.  Publish with no handlers is harmless: whether the event's type
tag was never subscribed to (no entry) or all its handlers were removed
(an empty entry), publish invokes nobody, raises no fault, and returns
the dispatch state — machines and pending queue — unchanged. -/
theorem publish_no_handlers (h : HandleFn) (reg : Registry) (event : Event) (st : DState)
    (hn : lookupReg reg (Event.type event) = none ∨
      lookupReg reg (Event.type event) = some []) :
    publish h reg event st = ([], Except.ok st) := by
  rcases hn with hn | hn
  · simp only [publish, hn]
  · simp only [publish, hn]
    rfl

/-- Witness for C8: after unsubscribing the sale subscriber the "sale" tag
maps to an empty list and publishing a Sale is a no-op; publishing to an
empty registry (tag never subscribed) is likewise a no-op. -/
theorem publish_no_handlers_witness :
    (publish refHandle (unsubscribeReg refReg "sale" saleSubscriber) (Event.sale 1 "001")
        { machines := refMachines, queue := [] } =
      ([], Except.ok { machines := refMachines, queue := [] })) ∧
    (publish refHandle [] (Event.refill 1 "001") { machines := refMachines, queue := [] } =
      ([], Except.ok { machines := refMachines, queue := [] })) := by
  exact ⟨publish_no_handlers refHandle _ _ _ (Or.inr rfl),
    publish_no_handlers refHandle [] _ _ (Or.inl rfl)⟩

theorem saleHandle_queue_ext (event : Event) (st : DState) :
    ∃ d, (saleHandle event st).queue = st.queue ++ d ∧ queueWeight d ≤ 1 := by
  rcases hg : getMachineById st.machines (Event.machineId event) with _ | m
  · exact ⟨[], by simp [saleHandle, hg], by simp [queueWeight]⟩
  · by_cases hc : m.stockLevel ≥ LOW_STOCK_WARNING_THRESHOLD ∧
        m.stockLevel - Event.getSoldQuantity event < LOW_STOCK_WARNING_THRESHOLD
    · exact ⟨[Event.lowStockWarning (m.stockLevel - Event.getSoldQuantity event)
          (Event.machineId event)], by simp [saleHandle, hg, hc],
        by simp [queueWeight, eventWeight]⟩
    · exact ⟨[], by simp [saleHandle, hg, hc], by simp [queueWeight]⟩

theorem refillHandle_queue_ext (event : Event) (st : DState) :
    ∃ d, (refillHandle event st).queue = st.queue ++ d ∧ queueWeight d ≤ 1 := by
  rcases hg : getMachineById st.machines (Event.machineId event) with _ | m
  · exact ⟨[], by simp [refillHandle, hg], by simp [queueWeight]⟩
  · by_cases hc : m.stockLevel < LOW_STOCK_WARNING_THRESHOLD ∧
        m.stockLevel + Event.refillAmount event ≥ LOW_STOCK_WARNING_THRESHOLD
    · exact ⟨[Event.stockLevelOk (m.stockLevel + Event.refillAmount event)
          (Event.machineId event)], by simp [refillHandle, hg, hc],
        by simp [queueWeight, eventWeight]⟩
    · exact ⟨[], by simp [refillHandle, hg, hc], by simp [queueWeight]⟩

theorem drain_nil (h : HandleFn) (reg : Registry) (fuel : Nat) (st : DState)
    (hq : st.queue = []) : drain h reg fuel st = ([], Except.ok st) := by
  cases fuel with
  | zero => rfl
  | succ n => simp only [drain, hq]

theorem drain_cons (h : HandleFn) (reg : Registry) (fuel : Nat) (ms : List Machine)
    (e : Event) (rest : List Event) (tr : List Subscriber) (st1 : DState)
    (hp : publish h reg e { machines := ms, queue := rest } = (tr, Except.ok st1)) :
    drain h reg (fuel + 1) { machines := ms, queue := e :: rest } =
      (e :: (drain h reg fuel st1).1, (drain h reg fuel st1).2) := by
  simp only [drain, hp]

/-- C2.  Drain-loop FIFO ordering: handlers only ever append derived
events to the back of the shared queue (first conjunct), and the driver
pops from the front, so for a batch [E1, E2] where handling E1 appends E3
and the later deliveries append nothing, the delivery order is exactly
E1, E2, E3 — the derived event comes after every event that was already
queued when it was appended, never immediately after its producer. -/
theorem drain_fifo_ordering :
    (∀ (event : Event) (st : DState) (tr : List Subscriber) (st1 : DState),
      publish refHandle refReg event st = (tr, Except.ok st1) →
      ∃ d, st1.queue = st.queue ++ d) ∧
    (∀ (ms ms1 ms2 ms3 : List Machine) (E1 E2 E3 : Event)
        (tr1 tr2 tr3 : List Subscriber) (fuel : Nat),
      publish refHandle refReg E1 { machines := ms, queue := [E2] } =
        (tr1, Except.ok { machines := ms1, queue := [E2, E3] }) →
      publish refHandle refReg E2 { machines := ms1, queue := [E3] } =
        (tr2, Except.ok { machines := ms2, queue := [E3] }) →
      publish refHandle refReg E3 { machines := ms2, queue := [] } =
        (tr3, Except.ok { machines := ms3, queue := [] }) →
      (drain refHandle refReg (fuel + 3) { machines := ms, queue := [E1, E2] }).1 =
        [E1, E2, E3]) := by
  constructor
  · intro event st tr st1 hpub
    cases event with
    | sale qty mid =>
      rw [publish_sale_eq] at hpub
      simp only [Prod.mk.injEq, Except.ok.injEq] at hpub
      rw [← hpub.2]
      obtain ⟨d, hd, _⟩ := saleHandle_queue_ext (Event.sale qty mid) st
      exact ⟨d, hd⟩
    | refill amt mid =>
      rw [publish_refill_eq] at hpub
      simp only [Prod.mk.injEq, Except.ok.injEq] at hpub
      rw [← hpub.2]
      obtain ⟨d, hd, _⟩ := refillHandle_queue_ext (Event.refill amt mid) st
      exact ⟨d, hd⟩
    | lowStockWarning r mid =>
      rw [publish_warn_eq] at hpub
      simp only [Prod.mk.injEq, Except.ok.injEq] at hpub
      rw [← hpub.2]
      exact ⟨[], by simp⟩
    | stockLevelOk r mid =>
      rw [publish_ok_eq] at hpub
      simp only [Prod.mk.injEq, Except.ok.injEq] at hpub
      rw [← hpub.2]
      exact ⟨[], by simp⟩
  · intro ms ms1 ms2 ms3 E1 E2 E3 tr1 tr2 tr3 fuel h1 h2 h3
    rw [show fuel + 3 = fuel + 1 + 1 + 1 from rfl,
      drain_cons refHandle refReg (fuel + 1 + 1) ms E1 [E2] tr1 _ h1]
    simp only [drain_cons refHandle refReg (fuel + 1) ms1 E2 [E3] tr2 _ h2,
      drain_cons refHandle refReg fuel ms2 E3 [] tr3 _ h3,
      drain_nil refHandle refReg fuel { machines := ms3, queue := [] } rfl]

/-- Witness for C2: from the reference machines, Sale(8,"001") appends the
warning E3, Sale(1,"003") appends nothing, and the trace of the drain is
E1, E2, E3 — the derived warning is delivered last. -/
theorem drain_fifo_ordering_witness :
    (drain refHandle refReg 3
        { machines := refMachines,
          queue := [Event.sale 8 "001", Event.sale 1 "003"] }).1 =
      [Event.sale 8 "001", Event.sale 1 "003", Event.lowStockWarning 2 "001"] := by
  exact drain_fifo_ordering.2 refMachines
    [ { id := "001", stockLevel := 2 }, { id := "002", stockLevel := 10 },
      { id := "003", stockLevel := 10 } ]
    [ { id := "001", stockLevel := 2 }, { id := "002", stockLevel := 10 },
      { id := "003", stockLevel := 9 } ]
    [ { id := "001", stockLevel := 2 }, { id := "002", stockLevel := 10 },
      { id := "003", stockLevel := 9 } ]
    (Event.sale 8 "001") (Event.sale 1 "003") (Event.lowStockWarning 2 "001")
    [saleSubscriber] [saleSubscriber] [stockWarningSubscriber] 0 rfl rfl rfl

/-- C5.  Unsubscribe scoping: unsubscribe(t, h) replaces t's handler list
by the list with every occurrence of h (reference identity) filtered out,
leaves the list of every other type tag untouched even when the same
handler instance is registered there, and is a no-op on the whole registry
when t has no entry or h is not in t's list. -/
theorem unsubscribe_scoping (reg : Registry) (t : String) (handler : Subscriber) :
    (lookupReg (unsubscribeReg reg t handler) t =
      (lookupReg reg t).map (fun l => l.filter (fun s => s != handler))) ∧
    (∀ t2 : String, t2 ≠ t →
      lookupReg (unsubscribeReg reg t handler) t2 = lookupReg reg t2) ∧
    (lookupReg reg t = none → unsubscribeReg reg t handler = reg) ∧
    (∀ l : List Subscriber, lookupReg reg t = some l → handler ∉ l →
      unsubscribeReg reg t handler = reg) := by
  refine ⟨?_, ?_, ?_, ?_⟩
  · induction reg with
    | nil => rfl
    | cons e rest ih =>
      obtain ⟨k, l⟩ := e
      by_cases hk : (k == t) = true
      · simp [unsubscribeReg, lookupReg, hk]
      · simp [unsubscribeReg, lookupReg, hk, ih]
  · intro t2 ht2
    induction reg with
    | nil => rfl
    | cons e rest ih =>
      obtain ⟨k, l⟩ := e
      by_cases hk : (k == t) = true
      · have hk2 : (k == t2) = false := by
          rw [beq_eq_false_iff_ne]
          rw [beq_iff_eq] at hk
          intro he
          exact ht2 (he ▸ hk)
        simp [unsubscribeReg, lookupReg, hk, hk2]
      · by_cases hk2 : (k == t2) = true
        · simp [unsubscribeReg, lookupReg, hk, hk2]
        · simp [unsubscribeReg, lookupReg, hk, hk2, ih]
  · intro hnone
    induction reg with
    | nil => rfl
    | cons e rest ih =>
      obtain ⟨k, l⟩ := e
      by_cases hk : (k == t) = true
      · simp [lookupReg, hk] at hnone
      · simp only [lookupReg, hk, if_neg, Bool.false_eq_true, if_false] at hnone
        simp [unsubscribeReg, hk, ih hnone]
  · intro l hsome hmem
    induction reg with
    | nil => simp [lookupReg] at hsome
    | cons e rest ih =>
      obtain ⟨k, l0⟩ := e
      by_cases hk : (k == t) = true
      · simp only [lookupReg, hk, if_true, Option.some.injEq] at hsome
        subst hsome
        simp only [unsubscribeReg, hk, if_true]
        have hfil : l0.filter (fun s => s != handler) = l0 :=
          List.filter_eq_self.mpr
            (fun a ha => bne_iff_ne.mpr (fun he => hmem (by rw [← he]; exact ha)))
        rw [hfil]
      · simp only [lookupReg, hk, Bool.false_eq_true, if_false] at hsome
        simp [unsubscribeReg, hk, ih hsome]

/-- Witness for C5: removing the sale subscriber empties the "sale" list,
leaves the "refil" list untouched; unsubscribing a handler that is not in
the "sale" list, or under a tag with no registrants, leaves the registry
exactly as it was. -/
theorem unsubscribe_scoping_witness :
    (lookupReg (unsubscribeReg refReg "sale" saleSubscriber) "sale" = some []) ∧
    (lookupReg (unsubscribeReg refReg "sale" saleSubscriber) "refil" =
      some [refillSubscriber]) ∧
    (unsubscribeReg refReg "sale" stockWarningSubscriber = refReg) ∧
    (unsubscribeReg refReg "unknown_tag" saleSubscriber = refReg) := by
  refine ⟨?_, ?_, ?_, ?_⟩
  · exact ((unsubscribe_scoping refReg "sale" saleSubscriber).1).trans (by rfl)
  · exact ((unsubscribe_scoping refReg "sale" saleSubscriber).2.1 "refil"
      (by decide)).trans (by rfl)
  · exact (unsubscribe_scoping refReg "sale" stockWarningSubscriber).2.2.2
      [saleSubscriber] rfl (by decide)
  · exact (unsubscribe_scoping refReg "unknown_tag" saleSubscriber).2.2.1 rfl

theorem lookupReg_append_of_none (l1 l2 : Registry) (t : String)
    (h : lookupReg l1 t = none) : lookupReg (l1 ++ l2) t = lookupReg l2 t := by
  induction l1 with
  | nil => rfl
  | cons e rest ih =>
    obtain ⟨k, l⟩ := e
    by_cases hk : (k == t) = true
    · simp [lookupReg, hk] at h
    · simp only [lookupReg, hk, Bool.false_eq_true, if_false] at h
      simp [lookupReg, hk, ih h]

theorem lookupReg_append_of_some (l1 l2 : Registry) (t : String) (x : List Subscriber)
    (h : lookupReg l1 t = some x) : lookupReg (l1 ++ l2) t = some x := by
  induction l1 with
  | nil => simp [lookupReg] at h
  | cons e rest ih =>
    obtain ⟨k, l⟩ := e
    by_cases hk : (k == t) = true
    · simp only [lookupReg, hk, if_true, Option.some.injEq] at h
      simp [lookupReg, hk, h]
    · simp only [lookupReg, hk, Bool.false_eq_true, if_false] at h
      simp [lookupReg, hk, ih h]

theorem subscribeReg_of_none (reg : Registry) (t : String) (handler : Subscriber)
    (hnone : lookupReg reg t = none) :
    subscribeReg reg t handler = reg ++ [(t, [handler])] := by
  induction reg with
  | nil => rfl
  | cons e rest ih =>
    obtain ⟨k, l⟩ := e
    by_cases hk : (k == t) = true
    · simp [lookupReg, hk] at hnone
    · simp only [lookupReg, hk, Bool.false_eq_true, if_false] at hnone
      simp [subscribeReg, hk, ih hnone]

theorem unsubscribeReg_append_of_none (reg : Registry) (t : String) (handler : Subscriber)
    (hnone : lookupReg reg t = none) :
    unsubscribeReg (reg ++ [(t, [handler])]) t handler = reg ++ [(t, [])] := by
  induction reg with
  | nil => simp [unsubscribeReg]
  | cons e rest ih =>
    obtain ⟨k, l⟩ := e
    by_cases hk : (k == t) = true
    · simp [lookupReg, hk] at hnone
    · simp only [lookupReg, hk, Bool.false_eq_true, if_false] at hnone
      simp [unsubscribeReg, hk, ih hnone]

theorem roundtrip_of_some (reg : Registry) (t : String) (handler : Subscriber)
    (l : List Subscriber) (hsome : lookupReg reg t = some l) (hmem : handler ∉ l) :
    unsubscribeReg (subscribeReg reg t handler) t handler = reg := by
  induction reg with
  | nil => simp [lookupReg] at hsome
  | cons e rest ih =>
    obtain ⟨k, l0⟩ := e
    by_cases hk : (k == t) = true
    · simp only [lookupReg, hk, if_true, Option.some.injEq] at hsome
      subst hsome
      simp only [subscribeReg, unsubscribeReg, hk, if_true]
      have hfil : (l0 ++ [handler]).filter (fun s => s != handler) = l0 := by
        rw [List.filter_append]
        have h1 : l0.filter (fun s => s != handler) = l0 :=
          List.filter_eq_self.mpr
            (fun a ha => bne_iff_ne.mpr (fun he => hmem (by rw [← he]; exact ha)))
        simp [h1]
      rw [hfil]
    · simp only [lookupReg, hk, Bool.false_eq_true, if_false] at hsome
      simp [subscribeReg, unsubscribeReg, hk, ih hsome]

/-- C10.  Subscribe/unsubscribe round-trip: when handler h is not already
registered under tag t, subscribing h under t and then unsubscribing it
restores the delivery behavior of publish exactly — for every handler
semantics, every event and every dispatch state, publish after the pair of
calls invokes the same subscribers and produces the same outcome as
before. -/
theorem subscribe_unsubscribe_roundtrip (reg : Registry) (t : String)
    (handler : Subscriber) (hnot : handler ∉ (lookupReg reg t).getD []) :
    ∀ (h : HandleFn) (event : Event) (st : DState),
      publish h (unsubscribeReg (subscribeReg reg t handler) t handler) event st =
        publish h reg event st := by
  intro h event st
  rcases hsome : lookupReg reg t with _ | l
  · rw [subscribeReg_of_none reg t handler hsome,
      unsubscribeReg_append_of_none reg t handler hsome]
    rcases hl : lookupReg reg (Event.type event) with _ | subs
    · simp only [publish, lookupReg_append_of_none reg [(t, [])] (Event.type event) hl, hl,
        lookupReg]
      by_cases ht : (t == Event.type event) = true
      · simp [ht, runHandlers]
      · simp [ht]
    · simp only [publish,
        lookupReg_append_of_some reg [(t, [])] (Event.type event) subs hl, hl]
  · have hmem : handler ∉ l := by
      rw [hsome] at hnot
      simpa using hnot
    rw [roundtrip_of_some reg t handler l hsome hmem]

/-- Witness for C10: the refill subscriber is not registered under "sale";
subscribing it there and immediately unsubscribing it leaves publishing a
Sale exactly as before. -/
theorem subscribe_unsubscribe_roundtrip_witness :
    publish refHandle
        (unsubscribeReg (subscribeReg refReg "sale" refillSubscriber) "sale" refillSubscriber)
        (Event.sale 8 "001") { machines := refMachines, queue := [] } =
      publish refHandle refReg (Event.sale 8 "001")
        { machines := refMachines, queue := [] } := by
  exact subscribe_unsubscribe_roundtrip refReg "sale" refillSubscriber (by decide)
    refHandle (Event.sale 8 "001") { machines := refMachines, queue := [] }

theorem runHandlers_fault (h : HandleFn) (event : Event) :
    ∀ (pre : List Subscriber) (s : Subscriber) (post : List Subscriber)
      (st st1 : DState) (f : String),
      runHandlers h pre event st = (pre, Except.ok st1) →
      h s event st1 = Except.error f →
      runHandlers h (pre ++ s :: post) event st = (pre ++ [s], Except.error f) := by
  intro pre
  induction pre with
  | nil =>
    intro s post st st1 f hpre hs
    simp only [runHandlers, Prod.mk.injEq, Except.ok.injEq, true_and] at hpre
    subst hpre
    simp [runHandlers, hs]
  | cons p ps ih =>
    intro s post st st1 f hpre hs
    rcases hp : h p event st with f0 | stp
    · simp [runHandlers, hp] at hpre
    · simp only [runHandlers, hp, Prod.mk.injEq, List.cons.injEq, true_and] at hpre
      obtain ⟨h1, h2⟩ := hpre
      have hrec : runHandlers h ps event stp = (ps, Except.ok st1) :=
        calc runHandlers h ps event stp
            = ((runHandlers h ps event stp).1, (runHandlers h ps event stp).2) := rfl
          _ = (ps, Except.ok st1) := by rw [h1, h2]
      simp only [List.cons_append, runHandlers, hp, List.append_eq]
      rw [ih s post stp st1 f hrec hs]

/-- C6.  Handler fault propagation: publish fans out synchronously over
the registered list in registration order with no isolation, so when the
handlers before s succeed and s raises a fault, the fault propagates out
of publish uncaught, the handlers after s are never invoked (the
invocation trace is exactly the prefix up to and including s), and the
drain loop delivering that event aborts with the same fault. -/
theorem handler_fault_propagation :
    (∀ (h : HandleFn) (reg : Registry) (event : Event) (st st1 : DState)
        (pre post : List Subscriber) (s : Subscriber) (f : String),
      lookupReg reg (Event.type event) = some (pre ++ s :: post) →
      runHandlers h pre event st = (pre, Except.ok st1) →
      h s event st1 = Except.error f →
      publish h reg event st = (pre ++ [s], Except.error f)) ∧
    (∀ (h : HandleFn) (reg : Registry) (fuel : Nat) (ms : List Machine)
        (event : Event) (rest : List Event) (tr : List Subscriber) (f : String),
      publish h reg event { machines := ms, queue := rest } = (tr, Except.error f) →
      drain h reg (fuel + 1) { machines := ms, queue := event :: rest } =
        ([event], Except.error f)) := by
  constructor
  · intro h reg event st st1 pre post s f hlook hpre hs
    simp only [publish, hlook]
    exact runHandlers_fault h event pre s post st st1 f hpre hs
  · intro h reg fuel ms event rest tr f hpub
    simp only [drain, hpub]

/-- Witness for C6: three sale handlers registered; the middle one (serial
99) throws; publish propagates the fault, invokes only the first two, and
a drain on that single event aborts with the fault. -/
theorem handler_fault_propagation_witness :
    (publish (fun s _ st => if s.sid == 99 then Except.error "boom" else Except.ok st)
        [("sale", [{ sid := 0, kind := SKind.saleSub }, { sid := 99, kind := SKind.saleSub },
                   { sid := 1, kind := SKind.saleSub }])]
        (Event.sale 1 "001") { machines := refMachines, queue := [] } =
      ([{ sid := 0, kind := SKind.saleSub }, { sid := 99, kind := SKind.saleSub }],
        Except.error "boom")) ∧
    (drain (fun s _ st => if s.sid == 99 then Except.error "boom" else Except.ok st)
        [("sale", [{ sid := 0, kind := SKind.saleSub }, { sid := 99, kind := SKind.saleSub },
                   { sid := 1, kind := SKind.saleSub }])]
        1 { machines := refMachines, queue := [Event.sale 1 "001"] } =
      ([Event.sale 1 "001"], Except.error "boom")) := by
  constructor
  · exact handler_fault_propagation.1
      (fun s _ st => if s.sid == 99 then Except.error "boom" else Except.ok st)
      [("sale", [{ sid := 0, kind := SKind.saleSub }, { sid := 99, kind := SKind.saleSub },
                 { sid := 1, kind := SKind.saleSub }])]
      (Event.sale 1 "001")
      { machines := refMachines, queue := [] } { machines := refMachines, queue := [] }
      [{ sid := 0, kind := SKind.saleSub }] [{ sid := 1, kind := SKind.saleSub }]
      { sid := 99, kind := SKind.saleSub } "boom" rfl rfl rfl
  · exact handler_fault_propagation.2
      (fun s _ st => if s.sid == 99 then Except.error "boom" else Except.ok st)
      [("sale", [{ sid := 0, kind := SKind.saleSub }, { sid := 99, kind := SKind.saleSub },
                 { sid := 1, kind := SKind.saleSub }])]
      0 refMachines (Event.sale 1 "001") []
      [{ sid := 0, kind := SKind.saleSub }, { sid := 99, kind := SKind.saleSub }] "boom" rfl

theorem eventWeight_pos (e : Event) : 1 ≤ eventWeight e := by
  cases e <;> simp [eventWeight]

theorem eventWeight_le_two (e : Event) : eventWeight e ≤ 2 := by
  cases e <;> simp [eventWeight]

theorem queueWeight_append (a b : List Event) :
    queueWeight (a ++ b) = queueWeight a + queueWeight b := by
  simp [queueWeight]

theorem queueWeight_le_twice_length (q : List Event) :
    queueWeight q ≤ 2 * q.length := by
  induction q with
  | nil => simp [queueWeight]
  | cons e rest ih =>
    have h2 := eventWeight_le_two e
    simp only [queueWeight, List.map_cons, List.sum_cons, List.length_cons] at *
    omega

theorem publish_refReg_ok (event : Event) (st : DState) :
    ∃ (tr : List Subscriber) (st1 : DState),
      publish refHandle refReg event st = (tr, Except.ok st1) ∧
      queueWeight st1.queue + 1 ≤ queueWeight st.queue + eventWeight event := by
  cases event with
  | sale qty mid =>
    obtain ⟨d, hd, hw⟩ := saleHandle_queue_ext (Event.sale qty mid) st
    refine ⟨[saleSubscriber], saleHandle (Event.sale qty mid) st,
      publish_sale_eq qty mid st, ?_⟩
    rw [hd, queueWeight_append]
    simp only [eventWeight]
    omega
  | refill amt mid =>
    obtain ⟨d, hd, hw⟩ := refillHandle_queue_ext (Event.refill amt mid) st
    refine ⟨[refillSubscriber], refillHandle (Event.refill amt mid) st,
      publish_refill_eq amt mid st, ?_⟩
    rw [hd, queueWeight_append]
    simp only [eventWeight]
    omega
  | lowStockWarning r mid =>
    exact ⟨[stockWarningSubscriber], st, publish_warn_eq r mid st, by simp [eventWeight]⟩
  | stockLevelOk r mid =>
    exact ⟨[stockLevelOkSubscriber], st, publish_ok_eq r mid st, by simp [eventWeight]⟩

theorem drain_complete (fuel : Nat) :
    ∀ (st : DState), queueWeight st.queue ≤ fuel →
      ∃ (tr : List Event) (ms1 : List Machine),
        drain refHandle refReg fuel st = (tr, Except.ok { machines := ms1, queue := [] }) ∧
        tr.length ≤ queueWeight st.queue := by
  induction fuel with
  | zero =>
    intro st hw
    obtain ⟨ms, q⟩ := st
    rcases hq : q with _ | ⟨e, rest⟩
    · subst hq
      exact ⟨[], ms, rfl, by simp⟩
    · exfalso
      subst hq
      have h1 := eventWeight_pos e
      simp only [queueWeight, List.map_cons, List.sum_cons] at hw
      omega
  | succ n ih =>
    intro st hw
    obtain ⟨ms, q⟩ := st
    rcases hq : q with _ | ⟨e, rest⟩
    · subst hq
      exact ⟨[], ms, drain_nil refHandle refReg (n + 1) _ rfl, by simp⟩
    · subst hq
      obtain ⟨tr0, st1, hpub, hwt⟩ := publish_refReg_ok e { machines := ms, queue := rest }
      have hqw : queueWeight (e :: rest) = eventWeight e + queueWeight rest := by
        simp [queueWeight]
      have hle : queueWeight st1.queue ≤ n := by
        simp only [queueWeight, List.map_cons, List.sum_cons] at hw
        simp only [queueWeight] at hwt ⊢
        omega
      obtain ⟨tr, ms1, hdr, hlen⟩ := ih st1 hle
      refine ⟨e :: tr, ms1, ?_, ?_⟩
      · rw [drain_cons refHandle refReg n ms e rest tr0 st1 hpub, hdr]
      · simp only [List.length_cons, hqw]
        simp only [queueWeight] at hwt hlen ⊢
        omega

/-- C9.  Drain termination for the reference handler set: every Sale or
Refill delivery appends at most one derived event and the warning and ok
handlers append none, so fuel 2n is always enough to drain an initial
batch of n events to an empty queue with an ok outcome, and the number of
deliveries is at most 2n. -/
theorem drain_termination_reference (ms : List Machine) (q : List Event) (fuel : Nat)
    (hf : 2 * q.length ≤ fuel) :
    ∃ (tr : List Event) (ms1 : List Machine),
      drain refHandle refReg fuel { machines := ms, queue := q } =
        (tr, Except.ok { machines := ms1, queue := [] }) ∧
      tr.length ≤ 2 * q.length := by
  have hwq := queueWeight_le_twice_length q
  obtain ⟨tr, ms1, hdr, hlen⟩ :=
    drain_complete fuel { machines := ms, queue := q } (le_trans hwq hf)
  exact ⟨tr, ms1, hdr, le_trans hlen hwq⟩

/-- Witness for C9: the five-event reference batch drains to an empty
queue with at most ten deliveries using fuel ten. -/
theorem drain_termination_reference_witness :
    ∃ (tr : List Event) (ms1 : List Machine),
      drain refHandle refReg 10 { machines := refMachines, queue := refBatch } =
        (tr, Except.ok { machines := ms1, queue := [] }) ∧
      tr.length ≤ 2 * refBatch.length := by
  exact drain_termination_reference refMachines refBatch 10 (by decide)

end VendingPubSub
